import Mathlib

/-!
Verification development for the PSD rendering and caching pipeline:
a shallow embedding of `src/rendering.py` (PSDFullRenderer), of
`src/utils/cache_manager.py` (PSDFileCache) and of the layer-visibility
operation of `src/models/psd.py` (PSDDocument), together with theorems
settling the behavioural claims about these components.

Modelling conventions:
  * PIL bitmaps are modelled as a free inductive type `Bitmap` whose
    constructors record the PIL operations the code performs
    (`Image.new`, `alpha_composite`, placeholder text drawing); bitmaps
    produced by the external PSD parser are `Bitmap.external` values.
    Pixel equality of losslessly re-encoded bitmaps is equality of these
    terms (PNG round trips are lossless).
  * Python code that may raise is embedded as `Except String` values;
    `None`-or-value results are `Option` values.
  * File modification, access times and byte sizes are natural numbers.
  * The behaviour of external-library calls (PSD accessors, per-layer
    `topil`) is an input of the model, carried inside `PSDDoc` and
    `PSDLayer` as `Except`/`Option` fields.
-/

namespace PSDTemple

/-- Model of a PIL bitmap: a free term recording how the image was built.
`external i` stands for a pixel buffer produced by the external PSD parser
(distinct indices stand for distinct buffers). -/
inductive Bitmap where
  | new (mode : String) (width height : Nat) (color : List Nat) : Bitmap
  | composited (base overlay : Bitmap) (left top : Int) : Bitmap
  | text (base : Bitmap) (lines : List String) : Bitmap
  | external (i : Nat) : Bitmap
deriving DecidableEq

/-! ### String helpers

Structural models of the Python string operations the code uses
(`str.split('.')[-1]`, `str.split('\n')`, `pathlib.Path.suffix`), kept
kernel-computable (no well-founded recursion) so witnesses evaluate. -/

/-- Characters strictly after the last `'.'` of the list, or `none` when
there is no dot.  This is the split state of Python `s.split('.')[-1]`. -/
def afterLastDot (cs : List Char) : Option (List Char) :=
  cs.foldl (fun acc c => if c = '.' then some [] else acc.map (fun l => l ++ [c])) none

/-- Python `s.split('.')[-1]`: the text after the last dot, or the whole
string when it has no dot. -/
def lastDotComponent (s : String) : String :=
  match afterLastDot s.data with
  | none => s
  | some tail => String.mk tail

/-- Python `pathlib.Path(name).suffix`: the final extension including its
dot; empty when there is no dot, when the only dot is the leading dot of a
hidden file, or when the name ends in a dot. -/
def suffixOf (name : String) : String :=
  let cs : List Char :=
    match name.data with
    | '.' :: rest => rest
    | l => l
  match afterLastDot cs with
  | none => ""
  | some [] => ""
  | some tail => String.mk ('.' :: tail)

/-- Python `text.split('\n')` on the character list of `text`. -/
def splitLines : List Char → List (List Char)
  | [] => [[]]
  | c :: rest =>
      if c = '\n' then [] :: splitLines rest
      else
        match splitLines rest with
        | [] => [[c]]
        | l :: ls => (c :: l) :: ls

/-! ### The PSD document object seen by `PSDFullRenderer._generate_composite`

`src/rendering.py`, lines 41-118.  The document object is dynamic Python:
the code probes it with `hasattr`/`getattr`.  `attrs` lists the attribute
names the object has (used only by `hasattr`); the three composite
accessors and each layer's `topil` are modelled by the `Except` value the
call would produce.  `getattr(layer, 'visible', True)` and the
`left`/`top`/`width`/`height` accesses are modelled as total fields, with
`0` standing for a missing/zero dimension exactly as in the code's
`getattr(..., 0)` defaults. -/

deriving instance DecidableEq for Except

structure PSDLayer where
  name : String
  visible : Bool
  left : Int
  top : Int
  width : Nat
  height : Nat
  /-- `callable(getattr(layer, 'topil', None))` and the call's outcome:
  `none` when `topil` is absent or not callable; `some (.error e)` when
  `layer.topil()` raises; `some (.ok none)` when it returns a falsy image;
  `some (.ok (some b))` when it returns bitmap `b`. -/
  topil : Option (Except String (Option Bitmap))
deriving DecidableEq

structure PSDDoc where
  /-- Attribute names the object has; consulted by `hasattr`. -/
  attrs : List String
  /-- Outcome of `psd.composite()` if it were called. -/
  compositeFn : Except String (Option Bitmap)
  /-- Outcome of `psd.topil()` if it were called. -/
  topilFn : Except String (Option Bitmap)
  /-- Outcome of `psd.get_composite_image()` if it were called. -/
  getCompositeImageFn : Except String (Option Bitmap)
  /-- `self.psd.header`: `none` when the attribute access raises; otherwise
  `(getattr(header, 'width', None), getattr(header, 'height', None))`. -/
  header : Option (Option Nat × Option Nat)
  /-- `getattr(self.psd, 'width', 0)`. -/
  widthAttr : Nat
  /-- `getattr(self.psd, 'height', 0)`. -/
  heightAttr : Nat
  /-- `getattr(self.psd, 'layers', None)`: the empty list also models an
  absent attribute (both are falsy and the code only tests truthiness
  before indexing). -/
  layers : List PSDLayer
deriving DecidableEq

/-- Environment for the PIL drawing calls of the placeholder branch
(`Image.new` / `ImageDraw` / `ImageFont.load_default` / `draw.text`,
lines 100-105): `drawFails = some e` means one of them raises `e`. -/
structure PILEnv where
  drawFails : Option String
deriving DecidableEq

/-- `hasattr(psd, a)`. -/
def hasattr (psd : PSDDoc) (a : String) : Bool :=
  psd.attrs.contains a

/-- The attribute name the fallback loop actually probes, line 55:
`method.__name__.split('.')[-1]` where `method` is one of the lambdas of
`try_methods` — a lambda's `__name__` is the fixed string `"<lambda>"`,
which contains no dot, so the probed name is `"<lambda>"` itself for all
three entries. -/
def probedAttrName : String := lastDotComponent "<lambda>"

/-- The `try_methods` table, lines 47-51: display name and call outcome of
each built-in composite strategy, in priority order. -/
def tryMethods (psd : PSDDoc) : List (String × Except String (Option Bitmap)) :=
  [("psd.composite()", psd.compositeFn),
   ("psd.topil()", psd.topilFn),
   ("psd.get_composite_image()", psd.getCompositeImageFn)]

/-- The `for method_name, method in try_methods` loop, lines 53-63.
State: the current `composite` value and the `methods_tried` log.  A
strategy is called only when `hasattr(psd, probedAttrName)`; a raised
exception appends a failure entry and continues; a truthy result logs the
method name and breaks; a falsy result leaves `composite = None` and
continues. -/
def tryLoop (psd : PSDDoc) :
    List (String × Except String (Option Bitmap)) → Option Bitmap → List String →
    Option Bitmap × List String
  | [], composite, tried => (composite, tried)
  | (methodName, m) :: rest, composite, tried =>
      if hasattr psd probedAttrName then
        match m with
        | .error e => tryLoop psd rest composite (tried ++ [methodName ++ " failed: " ++ e])
        | .ok none => tryLoop psd rest none tried
        | .ok (some b) => (some b, tried ++ [methodName])
      else
        tryLoop psd rest composite tried

/-- Python `a or b` for `a` an optional integer: `None` and `0` are falsy. -/
def pyOrNat (a : Option Nat) (b : Nat) : Nat :=
  match a with
  | none => b
  | some w => if w = 0 then b else w

/-- Body of the per-layer loop, lines 81-90, for index `i` (the index in
the reversed layer list, per `enumerate(reversed(...))`).  Returns the
updated canvas and logger output: a raised per-layer render is caught,
logged with the layer's index and name, and skipped. -/
def layerStep (canvas : Bitmap) (log : List String) (i : Nat) (layer : PSDLayer) :
    Bitmap × List String :=
  if layer.visible then
    match layer.topil with
    | none => (canvas, log)
    | some (.error e) =>
        (canvas, log ++ ["Layer " ++ toString i ++ " error (" ++ layer.name ++ "): " ++ e])
    | some (.ok none) => (canvas, log)
    | some (.ok (some img)) =>
        (Bitmap.composited canvas img layer.left layer.top,
         log ++ ["Layer " ++ toString i ++ " composited: " ++ layer.name])
  else (canvas, log)

/-- The `for i, layer in enumerate(reversed(self.psd.layers))` loop,
line 81, started at index `i`. -/
def layerLoop (i : Nat) (canvas : Bitmap) (log : List String) :
    List PSDLayer → Bitmap × List String
  | [] => (canvas, log)
  | layer :: rest =>
      layerLoop (i + 1) (layerStep canvas log i layer).1 (layerStep canvas log i layer).2 rest

/-- Manual layer composition, lines 66-91 (the body of the `try`): resolve
the canvas dimensions from the header, falling back to the first layer,
raise (`.error`) when neither yields nonzero dimensions or when a
needed attribute access raises, then fold the visible layers of the
reversed layer list onto a transparent RGBA canvas.  Returns the canvas
together with the per-layer logger output. -/
def manualComposition (psd : PSDDoc) : Except String (Bitmap × List String) :=
  match psd.header with
  | none => .error "AttributeError: header"
  | some hd =>
      let width := pyOrNat hd.1 psd.widthAttr
      let height := pyOrNat hd.2 psd.heightAttr
      let dims : Option (Nat × Nat) :=
        if width = 0 ∨ height = 0 then
          match psd.layers with
          | [] => none
          | first :: _ => some (first.width, first.height)
        else some (width, height)
      match dims with
      | none => .error "IndexError: list index out of range"
      | some (width, height) =>
          if width = 0 ∨ height = 0 then
            .error "Unable to determine image dimensions"
          else
            .ok (layerLoop 0 (Bitmap.new "RGBA" width height [0, 0, 0, 0]) []
                   psd.layers.reverse)

/-- Lines 41-94 of `_generate_composite`: the composite produced by the
strategy chain (with its per-layer logger output), and the final
`methods_tried` list.  The manual branch runs only when the built-in loop
left `composite = None` and `getattr(psd, 'layers', None)` is truthy; a
raise inside it is caught by its `except` and appended to
`methods_tried`. -/
def strategiesResult (psd : PSDDoc) :
    Option (Bitmap × List String) × List String :=
  let t := tryLoop psd (tryMethods psd) none []
  match t.1 with
  | some b => (some (b, []), t.2)
  | none =>
      if psd.layers.isEmpty then (none, t.2)
      else
        match manualComposition psd with
        | .ok r => (some r, t.2 ++ ["manual layer composition"])
        | .error e => (none, t.2 ++ ["manual composition failed: " ++ e])

/-- The hard-failure message of lines 97 and 109. -/
def errorMessage (tried : List String) : String :=
  "Could not generate composite. Tried methods: " ++ String.intercalate ", " tried

/-- The text lines drawn on the placeholder, lines 103-104:
`text.split('\n')` of the diagnostic message. -/
def placeholderLines (tried : List String) : List String :=
  (splitLines ("Failed to load PSD file.\n\nTried methods:\n" ++
      String.intercalate "\n" (tried.map (fun m => "- " ++ m))).data).map String.mk

/-- The diagnostic placeholder bitmap, lines 100-105: a fixed 800x200
pale-red RGB canvas with the diagnostic text lines drawn on it. -/
def placeholderBitmap (tried : List String) : Bitmap :=
  Bitmap.text (Bitmap.new "RGB" 800 200 [255, 200, 200]) (placeholderLines tried)

/-- `PSDFullRenderer._generate_composite`, lines 41-118, as a function of
the PIL environment and the document.  `.ok (b, log)` is a returned
bitmap together with the per-layer log; `.error` is a raised
`ValueError`.  The best-effort cache write of lines 111-116 is inside its
own `try/except`, never alters the returned bitmap, and is modelled
separately by the cache embedding below. -/
def generateComposite (env : PILEnv) (psd : PSDDoc) :
    Except String (Bitmap × List String) :=
  match strategiesResult psd with
  | (some r, _) => .ok r
  | (none, tried) =>
      match env.drawFails with
      | none => .ok (placeholderBitmap tried, [])
      | some _ => .error (errorMessage tried)

/-! ### The renderer state machine

`src/rendering.py`, lines 23-144.  `PSDFullRenderer`'s mutable state is
`_composite`, `_loading` and `_callbacks`; callbacks are identified by
numeric tokens.  A fresh renderer (constructed without a cache hit) is
`initialState`. -/

structure RendererState where
  composite : Option Bitmap
  loading : Bool
  callbacks : List Nat
deriving DecidableEq

/-- The state of a fresh `PSDFullRenderer` after `__init__` without a
cache hit (lines 25-30). -/
def initialState : RendererState :=
  { composite := none, loading := false, callbacks := [] }

/-- `PSDFullRenderer.get_composite_image`, lines 130-144: returns the
bitmap synchronously when one is held; otherwise appends the callback (if
given), and starts the background generation thread when none is in
flight.  Result: the synchronous return value, the new state, and whether
a generation thread was started by this call. -/
def getCompositeImage (s : RendererState) (cb : Option Nat) :
    Option Bitmap × RendererState × Bool :=
  match s.composite with
  | some b => (some b, s, false)
  | none =>
      let s1 :=
        match cb with
        | some c => { s with callbacks := s.callbacks ++ [c] }
        | none => s
      if s1.loading then (none, s1, false)
      else (none, { s1 with loading := true }, true)

/-- `PSDFullRenderer._on_composite_ready`, lines 120-128: store the
bitmap, clear the loading flag, invoke every attached callback in order
(an exception inside a callback is caught, so each is invoked exactly
once regardless), then clear the list.  Returns the new state and the
invocation list (callback token, delivered bitmap). -/
def onCompositeReady (s : RendererState) (b : Bitmap) :
    RendererState × List (Nat × Bitmap) :=
  ({ composite := some b, loading := false, callbacks := [] },
   s.callbacks.map (fun c => (c, b)))

/-- A sequence of `get_composite_image` calls issued against one renderer
(no completion in between).  Returns the synchronous results in order,
the final state, and how many generation threads were started. -/
def runRequests (s : RendererState) :
    List (Option Nat) → List (Option Bitmap) × RendererState × Nat
  | [] => ([], s, 0)
  | cb :: rest =>
      let t := getCompositeImage s cb
      let u := runRequests t.2.1 rest
      (t.1 :: u.1, u.2.1, (if t.2.2 then 1 else 0) + u.2.2)

/-- The background thread's target, line 140:
`lambda: self._on_composite_ready(self._generate_composite())`.  There is
no `try/except` in this lambda, so a raise inside
`_generate_composite` propagates out of the thread target (`.error`) and
`_on_composite_ready` — and with it every attached callback — never
runs. -/
def threadBody (env : PILEnv) (psd : PSDDoc) (s : RendererState) :
    Except String (RendererState × List (Nat × Bitmap)) :=
  match generateComposite env psd with
  | .ok (b, _) => .ok (onCompositeReady s b)
  | .error e => .error e

/-! ### The on-disk cache

`src/utils/cache_manager.py` (`PSDFileCache`).  The cache directory is an
association list from file name to `FileInfo`; a real directory has
pairwise-distinct names, carried as a `Nodup` hypothesis where a proof
needs it.  `content = some b` means the file decodes (`Image.open`) to
bitmap `b`; `content = none` means it is not a decodable image (for
instance `metadata.json`, or a corrupt file).  PNG is lossless, so the
bitmap written by `image.save(..., "PNG")` is the bitmap `Image.open`
reads back. -/

structure FileInfo where
  size : Nat
  mtime : Nat
  atime : Nat
  content : Option Bitmap
deriving DecidableEq

/-- The contents of the cache directory (`self.cache_dir`). -/
abbrev CacheFS := List (String × FileInfo)

/-- Existence plus `stat` of a file in the cache directory (first match,
as on a real file system where names are unique). -/
def lookupFile (fs : CacheFS) (name : String) : Option FileInfo :=
  (fs.find? (fun e => e.1 = name)).map (fun e => e.2)

/-- `os.remove` of one cache file. -/
def removeFile (fs : CacheFS) (name : String) : CacheFS :=
  fs.filter (fun e => e.1 ≠ name)

/-- `PSDFileCache._get_file_hash`, lines 49-64: md5 over the source path,
byte size and mtime.  Modelled as an injective encoding of the same
triple; the `"md5:"` sentinel records that real digests never collide
with the literal name `metadata.json`. -/
def getFileHash (filepath : String) (srcSize srcMtime : Nat) : String :=
  "md5:" ++ filepath ++ ":" ++ toString srcSize ++ ":" ++ toString srcMtime

/-- `PSDFileCache.get_cache_path`, lines 66-78 (the name inside the cache
directory): hash, then the variant suffix, then `".png"`. -/
def getCachePath (filepath suffix : String) (srcSize srcMtime : Nat) : String :=
  getFileHash filepath srcSize srcMtime ++ suffix ++ ".png"

/-- `PSDFileCache.get_cached_image`, lines 80-110.  `srcSize`/`srcMtime`
are the source file's `os.stat` values (used both in the hash and in the
staleness check).  Returns the decoded bitmap (or `none`) and the cache
directory after the call (a stale file is deleted as a side effect). -/
def getCachedImage (fs : CacheFS) (filepath suffix : String)
    (srcSize srcMtime : Nat) : Option Bitmap × CacheFS :=
  let cachePath := getCachePath filepath suffix srcSize srcMtime
  match lookupFile fs cachePath with
  | none => (none, fs)
  | some info =>
      if info.mtime < srcMtime then (none, removeFile fs cachePath)
      else
        match info.content with
        | some img => (some img, fs)
        | none => (none, fs)

/-- One record of `self.metadata`, lines 130-136. -/
structure MetaEntry where
  sourcePath : String
  cachePath : String
  size : Nat
  createdAt : Nat
  lastAccessed : Nat
deriving DecidableEq

/-- Abstract model of the byte size of `json.dump(self.metadata, ...)`
written by `_save_metadata`. -/
def metadataSize (md : List (String × MetaEntry)) : Nat :=
  2 + (md.map (fun e => 96 + e.1.length + e.2.sourcePath.length + e.2.cachePath.length)).sum

/-- Abstract model of the byte size of the PNG encoding written by
`image.save(cache_path, "PNG", optimize=True)`. -/
def pngSize : Bitmap → Nat
  | .new _ w h _ => 64 + w * h
  | .composited b o _ _ => pngSize b + pngSize o
  | .text b lines => pngSize b + 16 * lines.length
  | .external i => 64 + i

/-- Write (or overwrite) one file of the cache directory. -/
def setFile (fs : CacheFS) (name : String) (info : FileInfo) : CacheFS :=
  (name, info) :: removeFile fs name

/-- Replace (or insert) one metadata record. -/
def setMeta (md : List (String × MetaEntry)) (key : String) (entry : MetaEntry) :
    List (String × MetaEntry) :=
  (key, entry) :: md.filter (fun e => e.1 ≠ key)

/-- The in-memory cache state: the directory contents plus
`self.metadata`. -/
structure CacheState where
  files : CacheFS
  metadata : List (String × MetaEntry)
deriving DecidableEq

/-- The 1 GiB budget of line 29 (`self.max_cache_size`). -/
def maxCacheSize : Nat := 1024 * 1024 * 1024

/-- Total bytes of every file in the cache directory, line 149 — all
files, `metadata.json` included. -/
def totalSize (fs : CacheFS) : Nat :=
  (fs.map (fun e => e.2.size)).sum

/-- The suffixes a file must have to be an eviction candidate,
line 157. -/
def candExts : List String := [".png", ".jpg", ".jpeg"]

/-- Whether a directory entry is an eviction candidate. -/
def isCandidate (e : String × FileInfo) : Bool :=
  candExts.contains (suffixOf e.1)

/-- The candidate list of lines 155-158: `(file name, atime)` of each
candidate, in directory order. -/
def candidates (fs : CacheFS) : List (String × Nat) :=
  (fs.filter isCandidate).map (fun e => (e.1, e.2.atime))

/-- Line 160: the candidates sorted by last-access time ascending
(Python `list.sort` is stable). -/
def sortedCandidates (fs : CacheFS) : List (String × Nat) :=
  (candidates fs).insertionSort (fun a b => a.2 ≤ b.2)

/-- The deletion loop of lines 163-171: walk the sorted candidates; stop
as soon as the running total is within budget; otherwise delete the file
and subtract its size (a candidate that no longer exists is skipped, as
its `stat` raise is caught). -/
def sweep : List (String × Nat) → CacheFS → Nat → CacheFS
  | [], fs, _ => fs
  | (name, _) :: rest, fs, total =>
      if total ≤ maxCacheSize then fs
      else
        match lookupFile fs name with
        | none => sweep rest fs total
        | some info => sweep rest (removeFile fs name) (total - info.size)

/-- `PSDFileCache._cleanup_cache`, lines 145-174. -/
def cleanupCache (fs : CacheFS) : CacheFS :=
  if totalSize fs ≤ maxCacheSize then fs
  else sweep (sortedCandidates fs) fs (totalSize fs)

/-- Lines 121-137 of `save_image_to_cache`, before the cleanup call:
write the PNG at the computed cache path, update the metadata record, and
persist `metadata.json` into the cache directory (`_save_metadata`).
`now` is the wall-clock time of the call (`time.time()`, and the mtime
and atime the file system stamps on the written files). -/
def writeStage (img : Bitmap) (filepath suffix : String)
    (srcSize srcMtime now : Nat) (st : CacheState) : CacheState :=
  let cachePath := getCachePath filepath suffix srcSize srcMtime
  let files1 := setFile st.files cachePath
    { size := pngSize img, mtime := now, atime := now, content := some img }
  let key := getFileHash filepath srcSize srcMtime ++ suffix
  let md := setMeta st.metadata key
    { sourcePath := filepath, cachePath := cachePath, size := pngSize img,
      createdAt := now, lastAccessed := now }
  let files2 := setFile files1 "metadata.json"
    { size := metadataSize md, mtime := now, atime := now, content := none }
  { files := files2, metadata := md }

/-- `PSDFileCache.save_image_to_cache`, lines 112-143: the write stage
followed by `_cleanup_cache`.  (The whole body is inside `try/except`;
this models the successful write path — a failed write leaves the state
unchanged and is a no-op for the caller.) -/
def saveImageToCache (img : Bitmap) (filepath suffix : String)
    (srcSize srcMtime now : Nat) (st : CacheState) : CacheState :=
  let st1 := writeStage img filepath suffix srcSize srcMtime now st
  { st1 with files := cleanupCache st1.files }

/-- Total bytes of the files the sweep can never delete (no candidate
suffix), `metadata.json` among them. -/
def nonCandidateTotal (fs : CacheFS) : Nat :=
  totalSize (fs.filter (fun e => !isCandidate e))

/-- Deleting a list of files in order. -/
def removeList (names : List String) (fs : CacheFS) : CacheFS :=
  names.foldl removeFile fs

/-! ### The layer tree and `set_layer_visibility`

`src/models/psd.py`, lines 200-219.  The parsed document's layer tree:
pixel-like leaves and groups, each with a name and a mutable visibility
flag; iterating a group yields its children in order. -/

inductive PLayer where
  | pixel (name : String) (visible : Bool) : PLayer
  | group (name : String) (visible : Bool) (children : List PLayer) : PLayer

mutual

/-- The inner helper `set_visibility(layer, name, is_visible)` of
lines 205-213: a layer whose name matches is mutated and the search stops
(this is checked before the group case, so a matching group's own flag is
set); otherwise a group recurses into its children in order.  Returns the
`found` flag and the layer after the call. -/
def setVisibility (l : PLayer) (name : String) (v : Bool) : Bool × PLayer :=
  match l with
  | .pixel n vis =>
      if n = name then (true, .pixel n v) else (false, .pixel n vis)
  | .group n vis children =>
      if n = name then (true, .group n v children)
      else
        let r := setVisibilityList children name v
        (r.1, .group n vis r.2)

/-- The `for child in layer` loop: try children left to right, stopping
at the first success; an unsuccessful call mutates nothing. -/
def setVisibilityList (ls : List PLayer) (name : String) (v : Bool) :
    Bool × List PLayer :=
  match ls with
  | [] => (false, [])
  | c :: rest =>
      let r := setVisibility c name v
      if r.1 then (true, r.2 :: rest)
      else
        let r2 := setVisibilityList rest name v
        (r2.1, c :: r2.2)

end

/-- `PSDDocument` as far as the claims need it: the parsed handle
(`none` models `self.psd` being `None`) and the active renderer. -/
structure PSDDocument where
  psd : Option (List PLayer)
  renderer : RendererState

/-- `PSDDocument.set_layer_visibility`, lines 200-219: recursive name
lookup through the top-level layers (iterating `self.psd`), stopping at
the first match; returns whether a layer was found, and the document
after the call. -/
def setLayerVisibility (d : PSDDocument) (name : String) (v : Bool) :
    Bool × PSDDocument :=
  match d.psd with
  | none => (false, d)
  | some layers =>
      let r := setVisibilityList layers name v
      (r.1, { d with psd := some r.2 })

mutual

/-- Observation: the tree with every visibility flag forced to `true`
(everything about the tree except the flags). -/
def shapeOf (l : PLayer) : PLayer :=
  match l with
  | .pixel n _ => .pixel n true
  | .group n _ cs => .group n true (shapeOfList cs)

def shapeOfList (ls : List PLayer) : List PLayer :=
  match ls with
  | [] => []
  | c :: rest => shapeOf c :: shapeOfList rest

end

mutual

/-- Observation: the pre-order list of `(name, visible)` pairs — the
order in which `set_visibility` visits the layers. -/
def visList (l : PLayer) : List (String × Bool) :=
  match l with
  | .pixel n v => [(n, v)]
  | .group n v cs => (n, v) :: visListL cs

def visListL (ls : List PLayer) : List (String × Bool) :=
  match ls with
  | [] => []
  | c :: rest => visList c ++ visListL rest

end

/-- Update the value of the first pair whose key matches, leaving
everything else unchanged. -/
def updateFirst (xs : List (String × Bool)) (name : String) (v : Bool) :
    List (String × Bool) :=
  match xs with
  | [] => []
  | (n, b) :: rest =>
      if n = name then (n, v) :: rest else (n, b) :: updateFirst rest name v

/-! ## Shared concrete objects -/

/-- A PIL environment in which the placeholder drawing succeeds. -/
def envOK : PILEnv := { drawFails := none }

/-- The claim's example scenario: a document exposing none of the three
built-in composite accessors, with an empty layer list. -/
def psdC3 : PSDDoc :=
  { attrs := []
    compositeFn := .error "AttributeError"
    topilFn := .error "AttributeError"
    getCompositeImageFn := .error "AttributeError"
    header := none
    widthAttr := 0
    heightAttr := 0
    layers := [] }

/-- A document on which every strategy fails (no accessors, no layers). -/
def psdC5 : PSDDoc :=
  { attrs := []
    compositeFn := .error "AttributeError"
    topilFn := .error "AttributeError"
    getCompositeImageFn := .error "AttributeError"
    header := none
    widthAttr := 0
    heightAttr := 0
    layers := [] }

/-- A PIL environment in which the placeholder drawing raises. -/
def envBadC5 : PILEnv := { drawFails := some "cannot load default font" }

/-- A renderer mid-generation with one attached callback. -/
def stC5 : RendererState :=
  { composite := none, loading := true, callbacks := [7] }

/-- A concrete instance of the claim's scenario: three layers, the middle
one raising during its individual render. -/
def okLayer (nm : String) (k : Nat) (dx dy : Int) : PSDLayer :=
  { name := nm, visible := true, left := dx, top := dy, width := 4, height := 3,
    topil := some (.ok (some (Bitmap.external k))) }

def badLayer : PSDLayer :=
  { name := "broken", visible := true, left := 0, top := 0, width := 4, height := 3,
    topil := some (.error "decode error") }

def psdC2 : PSDDoc :=
  { attrs := []
    compositeFn := .error "AttributeError"
    topilFn := .error "AttributeError"
    getCompositeImageFn := .error "AttributeError"
    header := some (some 4, some 3)
    widthAttr := 0
    heightAttr := 0
    layers := [okLayer "top" 1 1 2, badLayer, okLayer "bottom" 2 0 1] }

/-- A cache entry written at mtime 3 for a source whose mtime is now 5. -/
def infoC6 : FileInfo :=
  { size := 70, mtime := 3, atime := 3, content := some (Bitmap.external 11) }

def fsC6 : CacheFS := [(getCachePath "a.psd" "_full" 10 5, infoC6)]

def treeC9 : List PLayer :=
  [.pixel "bg" true, .group "grp" true [.pixel "target" true, .pixel "other" false]]

def docC9 : PSDDocument :=
  { psd := some treeC9
    renderer := { composite := some (Bitmap.external 5), loading := false, callbacks := [] } }

/-- An oversized `metadata.json` (2 GiB) next to one small image file:
the sweep is triggered by the metadata's counted size and deletes the
image, while the metadata itself survives. -/
def bigMeta : FileInfo :=
  { size := 2 * maxCacheSize, mtime := 0, atime := 0, content := none }

def smallPng : FileInfo :=
  { size := 100, mtime := 0, atime := 1, content := some (Bitmap.external 3) }

def fsC10 : CacheFS := [("metadata.json", bigMeta), ("img.png", smallPng)]

/-- A cache directory occupied by a 2 GiB file that is not an eviction
candidate. -/
def junkBin : FileInfo :=
  { size := 2 * maxCacheSize, mtime := 0, atime := 0, content := none }

def stC7 : CacheState := { files := [("junk.bin", junkBin)], metadata := [] }

def emptyCache : CacheState := { files := [], metadata := [] }

def stC8 : CacheState :=
  { files := [("junk.bin",
      { size := 2 * maxCacheSize, mtime := 0, atime := 0, content := none })]
    metadata := [] }

/-! ## Claim C1 -/

/-- A document offering all three built-in composite accessors, each of
which would return a bitmap, and no usable layer list. -/
def psdC1 : PSDDoc :=
  { attrs := ["composite", "topil", "get_composite_image"]
    compositeFn := .ok (some (Bitmap.external 0))
    topilFn := .ok (some (Bitmap.external 1))
    getCompositeImageFn := .ok (some (Bitmap.external 2))
    header := none
    widthAttr := 0
    heightAttr := 0
    layers := [] }

/-- C1: the claim is false of the code.  For a document that has the
`composite` attribute and whose `psd.composite()` would return a bitmap,
the guard of line 55 probes `hasattr(psd, method.__name__.split('.')[-1])`
with `method` a lambda, i.e. `hasattr(psd, "<lambda>")`, which is false,
so the built-in loop invokes none of the three strategies
(`try_methods` yields `composite = None` and an empty `methods_tried`)
and the generator falls through to the placeholder instead of using
`psd.composite()`. -/
theorem c1_builtin_chain_never_attempted :
    hasattr psdC1 "composite" = true
    ∧ psdC1.compositeFn = Except.ok (some (Bitmap.external 0))
    ∧ hasattr psdC1 probedAttrName = false
    ∧ tryLoop psdC1 (tryMethods psdC1) none [] = (none, [])
    ∧ generateComposite envOK psdC1 = .ok (placeholderBitmap [], []) := by
  refine ⟨by decide, rfl, by decide, by decide, by decide⟩

/-! ## Claim C3 -/

/-- C3: when every strategy has failed or raised (the strategy chain left
no composite), `_generate_composite` returns the synthesized diagnostic
placeholder — the fixed 800x200 pale-red bitmap with the
attempted-and-failed strategy lines drawn on it — as a non-null `.ok`
result, and surfaces a hard failure (`ValueError`) only when the
placeholder drawing itself raises. -/
theorem c3_placeholder_contract (psd : PSDDoc) (env : PILEnv)
    (h : (strategiesResult psd).1 = none) :
    generateComposite env psd =
      (match env.drawFails with
       | none => .ok (placeholderBitmap (strategiesResult psd).2, [])
       | some _ => .error (errorMessage (strategiesResult psd).2)) := by
  rcases hsr : strategiesResult psd with ⟨c, t⟩
  rw [hsr] at h
  have hc : c = none := h
  subst hc
  unfold generateComposite
  rw [hsr]

theorem c3_placeholder_contract_witness :
    (strategiesResult psdC3).1 = none
    ∧ generateComposite envOK psdC3 =
        .ok (placeholderBitmap (strategiesResult psdC3).2, []) :=
  ⟨rfl, c3_placeholder_contract psdC3 envOK rfl⟩

/-! ## Claim C4 -/

/-- Requests that arrive while a generation is in flight only grow the
callback list: no new thread starts and each caller synchronously gets
`None`. -/
theorem runRequests_while_loading (cbs : List Nat) :
    ∀ s : RendererState, s.composite = none → s.loading = true →
      runRequests s (cbs.map (fun c => some c)) =
        (List.replicate cbs.length none,
         { s with callbacks := s.callbacks ++ cbs }, 0) := by
  induction cbs with
  | nil =>
      intro s h1 h2
      simp [runRequests]
  | cons c rest ih =>
      intro s h1 h2
      obtain ⟨comp, ld, cbl⟩ := s
      simp only at h1 h2
      subst h1; subst h2
      simp only [List.map_cons, runRequests, getCompositeImage, if_pos]
      rw [ih { composite := none, loading := true, callbacks := cbl ++ [c] } rfl rfl]
      simp [List.append_assoc, List.replicate_succ]

/-- C4: N `get_composite_image(callback)` calls against a fresh renderer,
all before the generation completes, return `None` synchronously, start
exactly one generation thread, and leave the callbacks attached in
arrival order; when `_on_composite_ready` then fires, every callback is
invoked exactly once, in attachment order, with the same bitmap, the
callback list is cleared, and a subsequent call returns the bitmap
synchronously without touching the state. -/
theorem c4_single_job (cbs : List Nat) (h : cbs ≠ []) (b : Bitmap) :
    runRequests initialState (cbs.map (fun c => some c)) =
      (List.replicate cbs.length none,
       { composite := none, loading := true, callbacks := cbs }, 1)
    ∧ onCompositeReady { composite := none, loading := true, callbacks := cbs } b =
        ({ composite := some b, loading := false, callbacks := [] },
         cbs.map (fun c => (c, b)))
    ∧ getCompositeImage { composite := some b, loading := false, callbacks := [] } none =
        (some b, { composite := some b, loading := false, callbacks := [] }, false) := by
  refine ⟨?_, rfl, rfl⟩
  cases cbs with
  | nil => exact absurd rfl h
  | cons c rest =>
      simp only [List.map_cons, runRequests]
      rw [show getCompositeImage initialState (some c) =
            (none, { composite := none, loading := true, callbacks := [c] }, true) from rfl]
      rw [runRequests_while_loading rest
            { composite := none, loading := true, callbacks := [c] } rfl rfl]
      simp [List.replicate_succ]

theorem c4_single_job_witness :
    ([0, 1, 2] : List Nat) ≠ []
    ∧ (runRequests initialState ([0, 1, 2].map (fun c => some c)) =
        (List.replicate ([0, 1, 2] : List Nat).length none,
         { composite := none, loading := true, callbacks := [0, 1, 2] }, 1)
      ∧ onCompositeReady
          { composite := none, loading := true, callbacks := [0, 1, 2] } (Bitmap.external 9) =
          ({ composite := some (Bitmap.external 9), loading := false, callbacks := [] },
           [0, 1, 2].map (fun c => (c, Bitmap.external 9)))
      ∧ getCompositeImage
          { composite := some (Bitmap.external 9), loading := false, callbacks := [] } none =
          (some (Bitmap.external 9),
           { composite := some (Bitmap.external 9), loading := false, callbacks := [] },
           false)) :=
  ⟨by decide, c4_single_job [0, 1, 2] (by decide) (Bitmap.external 9)⟩

/-! ## Claim C5 -/

/-- C5 as stated is false: when `_generate_composite` raises (the hard
failure where even the placeholder drawing fails), the thread target of
line 140 has no `try/except`, so the exception propagates out of the
thread body and `_on_composite_ready` never runs — the attached callback
is not invoked, contrary to the claim that the error is caught inside the
thread body and reported through the callback path. -/
theorem c5_counterexample :
    threadBody envBadC5 psdC5 stC5 = .error (errorMessage [])
    ∧ stC5.callbacks = [7] := by
  refine ⟨by decide, rfl⟩

/-- C5 amended: a successful generation (including every absorbed
composition failure, delivered as the placeholder) is reported to all
attached callbacks through `_on_composite_ready`; but when generation
itself raises — which can only happen when the placeholder drawing fails
and the strategy chain produced nothing — the exception escapes the
thread target uncaught, no callback is invoked, and the renderer state is
not updated.  (The caller of `get_composite_image` still never sees a
raise; it returned `None` synchronously.) -/
theorem c5_thread_error_path (env : PILEnv) (psd : PSDDoc) (s : RendererState) :
    (∀ b log, generateComposite env psd = .ok (b, log) →
        threadBody env psd s =
          .ok ({ composite := some b, loading := false, callbacks := [] },
               s.callbacks.map (fun c => (c, b))))
    ∧ (∀ e, generateComposite env psd = .error e →
        threadBody env psd s = .error e
        ∧ env.drawFails.isSome = true
        ∧ (strategiesResult psd).1 = none) := by
  constructor
  · intro b log hgen
    unfold threadBody
    rw [hgen]
    rfl
  · intro e hgen
    refine ⟨by unfold threadBody; rw [hgen], ?_, ?_⟩
    · unfold generateComposite at hgen
      rcases hsr : strategiesResult psd with ⟨c, t⟩
      rw [hsr] at hgen
      cases c with
      | some r =>
          obtain ⟨b, lg⟩ := r
          exact Except.noConfusion hgen
      | none =>
          cases henv : env.drawFails with
          | none => rw [henv] at hgen; exact Except.noConfusion hgen
          | some msg => rfl
    · unfold generateComposite at hgen
      rcases hsr : strategiesResult psd with ⟨c, t⟩
      rw [hsr] at hgen
      cases c with
      | some r =>
          obtain ⟨b, lg⟩ := r
          exact Except.noConfusion hgen
      | none => rfl

/-! ## Claim C2 -/

/-- The per-layer loop over a concatenation splits at the boundary. -/
theorem layerLoop_append (xs ys : List PSDLayer) :
    ∀ (i : Nat) (c : Bitmap) (lg : List String),
      layerLoop i c lg (xs ++ ys) =
        layerLoop (i + xs.length) (layerLoop i c lg xs).1 (layerLoop i c lg xs).2 ys := by
  induction xs with
  | nil =>
      intro i c lg
      simp [layerLoop]
  | cons x rest ih =>
      intro i c lg
      have harith : i + (rest.length + 1) = (i + 1) + rest.length := by omega
      simp only [List.cons_append, layerLoop, List.length_cons, harith]
      exact ih (i + 1) (layerStep c lg i x).1 (layerStep c lg i x).2

/-- The canvas mutation of one loop iteration does not depend on the
running index or the log accumulator. -/
theorem layerStep_canvas_congr (c : Bitmap) (lg lg' : List String) (i j : Nat)
    (x : PSDLayer) : (layerStep c lg i x).1 = (layerStep c lg' j x).1 := by
  unfold layerStep
  cases x.visible
  · rfl
  · cases hx : x.topil with
    | none => rfl
    | some r =>
        cases r with
        | error e => rfl
        | ok o =>
            cases o with
            | none => rfl
            | some img => rfl

/-- The canvas computed by the loop does not depend on the start index or
the log accumulator. -/
theorem layerLoop_canvas_congr (ls : List PSDLayer) :
    ∀ (i j : Nat) (c : Bitmap) (lg lg' : List String),
      (layerLoop i c lg ls).1 = (layerLoop j c lg' ls).1 := by
  induction ls with
  | nil => intro i j c lg lg'; rfl
  | cons x rest ih =>
      intro i j c lg lg'
      simp only [layerLoop]
      rw [layerStep_canvas_congr c lg lg' i j x]
      exact ih (i + 1) (j + 1) (layerStep c lg' j x).1 (layerStep c lg i x).2
        (layerStep c lg' j x).2

/-- One loop iteration only appends to the log accumulator. -/
theorem layerStep_log_extends (c : Bitmap) (lg : List String) (i : Nat) (x : PSDLayer) :
    ∃ s, (layerStep c lg i x).2 = lg ++ s := by
  unfold layerStep
  cases x.visible
  · exact ⟨[], by simp⟩
  · cases hx : x.topil with
    | none => exact ⟨[], by simp⟩
    | some r =>
        cases r with
        | error e => exact ⟨_, rfl⟩
        | ok o =>
            cases o with
            | none => exact ⟨[], by simp⟩
            | some img => exact ⟨_, rfl⟩

/-- The loop only appends to the log accumulator. -/
theorem layerLoop_log_extends (ls : List PSDLayer) :
    ∀ (i : Nat) (c : Bitmap) (lg : List String),
      ∃ t, (layerLoop i c lg ls).2 = lg ++ t := by
  induction ls with
  | nil => intro i c lg; exact ⟨[], by simp [layerLoop]⟩
  | cons x rest ih =>
      intro i c lg
      obtain ⟨s, hs⟩ := layerStep_log_extends c lg i x
      obtain ⟨t, ht⟩ := ih (i + 1) (layerStep c lg i x).1 (layerStep c lg i x).2
      refine ⟨s ++ t, ?_⟩
      simp only [layerLoop]
      rw [ht, hs, List.append_assoc]

/-- C2: during manual composition of `a ++ [f] ++ b`, where rendering the
visible layer `f` raises `e`, the failure is caught: the generator still
returns `.ok` — no exception propagates —, the composite equals the
bottom-to-top composition (over the reversed declared order, at the
layers' own offsets) of the remaining layers `a ++ b` alone, and the
per-layer log records the failure with `f`'s loop index (its position
`b.length` in the reversed order) and name. -/
theorem c2_layer_failure_isolated
    (env : PILEnv) (psd : PSDDoc) (a b : List PSDLayer) (f : PSDLayer)
    (e : String) (w h : Nat)
    (htry : (tryLoop psd (tryMethods psd) none []).1 = none)
    (hlayers : psd.layers = a ++ f :: b)
    (hf : f.topil = some (.error e))
    (hfv : f.visible = true)
    (hhd : psd.header = some (some w, some h))
    (hw : w ≠ 0) (hh : h ≠ 0) :
    ∃ log : List String,
      generateComposite env psd =
        .ok ((layerLoop 0 (Bitmap.new "RGBA" w h [0, 0, 0, 0]) [] ((a ++ b).reverse)).1,
             log)
      ∧ ("Layer " ++ toString b.length ++ " error (" ++ f.name ++ "): " ++ e) ∈ log := by
  have hrev : psd.layers.reverse = b.reverse ++ f :: a.reverse := by
    rw [hlayers]
    simp [List.reverse_append]
  have hmc : manualComposition psd =
      .ok (layerLoop 0 (Bitmap.new "RGBA" w h [0, 0, 0, 0]) [] psd.layers.reverse) := by
    unfold manualComposition
    rw [hhd]
    simp [pyOrNat, hw, hh]
  rcases htr : tryLoop psd (tryMethods psd) none [] with ⟨c0, tr⟩
  rw [htr] at htry
  have hc0 : c0 = none := htry
  subst hc0
  have hne : psd.layers.isEmpty = false := by
    rw [hlayers]
    cases a <;> simp
  have hsr : strategiesResult psd =
      (some (layerLoop 0 (Bitmap.new "RGBA" w h [0, 0, 0, 0]) [] psd.layers.reverse),
       tr ++ ["manual layer composition"]) := by
    simp only [strategiesResult]
    rw [htr, hne, hmc]
    simp
  set cv := Bitmap.new "RGBA" w h [0, 0, 0, 0] with hcv
  set P := layerLoop 0 cv [] psd.layers.reverse with hP
  have hgen : generateComposite env psd = .ok P := by
    unfold generateComposite
    rw [hsr]
  -- split the loop at the failing layer
  set Q := layerLoop 0 cv [] b.reverse with hQ
  set line := "Layer " ++ toString b.length ++ " error (" ++ f.name ++ "): " ++ e
    with hline
  have hPsplit : P = layerLoop (b.length + 1) Q.1 (Q.2 ++ [line]) a.reverse := by
    rw [hP, hrev, layerLoop_append b.reverse (f :: a.reverse) 0 cv []]
    have hstep : layerStep Q.1 Q.2 (0 + b.reverse.length) f = (Q.1, Q.2 ++ [line]) := by
      unfold layerStep
      rw [hf, hfv]
      simp [hline, List.length_reverse]
    simp only [layerLoop, ← hQ, hstep]
    have : 0 + b.reverse.length + 1 = b.length + 1 := by simp
    rw [this]
  have hcanvas : P.1 = (layerLoop 0 cv [] ((a ++ b).reverse)).1 := by
    rw [hPsplit]
    have hr2 : (a ++ b).reverse = b.reverse ++ a.reverse := by
      simp [List.reverse_append]
    rw [hr2, layerLoop_append b.reverse a.reverse 0 cv [], ← hQ]
    exact layerLoop_canvas_congr a.reverse (b.length + 1) (0 + b.reverse.length)
      Q.1 (Q.2 ++ [line]) Q.2
  have hlog : line ∈ P.2 := by
    rw [hPsplit]
    obtain ⟨t, ht⟩ := layerLoop_log_extends a.reverse (b.length + 1) Q.1 (Q.2 ++ [line])
    rw [ht]
    exact List.mem_append_left t (List.mem_append_right Q.2 (List.mem_singleton.mpr rfl))
  refine ⟨P.2, ?_, hlog⟩
  rw [hgen, ← hcanvas]

theorem c2_layer_failure_isolated_witness :
    ∃ log : List String,
      generateComposite envOK psdC2 =
        .ok ((layerLoop 0 (Bitmap.new "RGBA" 4 3 [0, 0, 0, 0]) []
                (([okLayer "top" 1 1 2] ++ [okLayer "bottom" 2 0 1]).reverse)).1,
             log)
      ∧ ("Layer " ++ toString ([okLayer "bottom" 2 0 1] : List PSDLayer).length ++
          " error (" ++ badLayer.name ++ "): " ++ "decode error") ∈ log :=
  c2_layer_failure_isolated envOK psdC2
    [okLayer "top" 1 1 2] [okLayer "bottom" 2 0 1] badLayer
    "decode error" 4 3 (by decide) rfl rfl rfl rfl (by decide) (by decide)

theorem c5_thread_error_path_witness :
    threadBody envBadC5 psdC5 { composite := none, loading := true, callbacks := [3, 4] } =
        .error (errorMessage [])
    ∧ envBadC5.drawFails.isSome = true
    ∧ (strategiesResult psdC5).1 = none :=
  (c5_thread_error_path envBadC5 psdC5
      { composite := none, loading := true, callbacks := [3, 4] }).2
    (errorMessage []) rfl

/-! ## Claim C6 -/

/-- C6: `get_cached_image` returns a bitmap only when the file at the
computed cache path exists, its mtime is not older than the source's
mtime, and it decodes; a stale file (cache mtime < source mtime) is
deleted as a side effect with an absent result; an undecodable file
yields an absent result without raising and without side effects. -/
theorem c6_staleness_invalidation (fs : CacheFS) (filepath suffix : String)
    (srcSize srcMtime : Nat) :
    (lookupFile fs (getCachePath filepath suffix srcSize srcMtime) = none →
      getCachedImage fs filepath suffix srcSize srcMtime = (none, fs))
    ∧ (∀ info, lookupFile fs (getCachePath filepath suffix srcSize srcMtime) = some info →
        (info.mtime < srcMtime →
          getCachedImage fs filepath suffix srcSize srcMtime =
            (none, removeFile fs (getCachePath filepath suffix srcSize srcMtime)))
        ∧ (srcMtime ≤ info.mtime →
          getCachedImage fs filepath suffix srcSize srcMtime = (info.content, fs)))
    ∧ (∀ b fs', getCachedImage fs filepath suffix srcSize srcMtime = (some b, fs') →
        ∃ info, lookupFile fs (getCachePath filepath suffix srcSize srcMtime) = some info
          ∧ srcMtime ≤ info.mtime ∧ info.content = some b ∧ fs' = fs) := by
  refine ⟨?_, ?_, ?_⟩
  · intro h
    simp only [getCachedImage]
    rw [h]
  · intro info h
    constructor
    · intro hlt
      simp only [getCachedImage]
      rw [h]
      simp [hlt]
    · intro hge
      simp only [getCachedImage]
      rw [h]
      simp only [if_neg (Nat.not_lt.mpr hge)]
      cases hc : info.content <;> simp [hc]
  · intro b fs' h
    simp only [getCachedImage] at h
    cases hl : lookupFile fs (getCachePath filepath suffix srcSize srcMtime) with
    | none =>
        rw [hl] at h
        simp at h
    | some info =>
        rw [hl] at h
        by_cases hlt : info.mtime < srcMtime
        · simp [hlt] at h
        · simp only [if_neg hlt] at h
          cases hc : info.content with
          | none => simp [hc] at h
          | some img =>
              simp [hc] at h
              obtain ⟨h1, h2⟩ := h
              exact ⟨info, rfl, Nat.not_lt.mp hlt, by rw [hc, h1], h2.symm⟩

theorem c6_staleness_invalidation_witness :
    lookupFile fsC6 (getCachePath "a.psd" "_full" 10 5) = some infoC6
    ∧ infoC6.mtime < 5
    ∧ getCachedImage fsC6 "a.psd" "_full" 10 5 =
        (none, removeFile fsC6 (getCachePath "a.psd" "_full" 10 5)) :=
  ⟨rfl, by decide,
    ((c6_staleness_invalidation fsC6 "a.psd" "_full" 10 5).2.1 infoC6 rfl).1 (by decide)⟩

/-! ## Claim C9 -/

theorem updateFirst_append_left :
    ∀ (xs ys : List (String × Bool)) (name : String) (v : Bool),
      name ∈ xs.map Prod.fst →
      updateFirst (xs ++ ys) name v = updateFirst xs name v ++ ys := by
  intro xs
  induction xs with
  | nil => intro ys name v h; simp at h
  | cons p rest ih =>
      intro ys name v h
      obtain ⟨n, b⟩ := p
      by_cases hn : n = name
      · simp [updateFirst, hn]
      · have h' : name ∈ rest.map Prod.fst := by
          simp only [List.map_cons, List.mem_cons] at h
          rcases h with h1 | h1
          · exact absurd h1.symm hn
          · exact h1
        simp only [List.cons_append, updateFirst, if_neg hn, List.append_eq]
        rw [ih ys name v h']

theorem updateFirst_append_right :
    ∀ (xs ys : List (String × Bool)) (name : String) (v : Bool),
      name ∉ xs.map Prod.fst →
      updateFirst (xs ++ ys) name v = xs ++ updateFirst ys name v := by
  intro xs
  induction xs with
  | nil => intro ys name v _; rfl
  | cons p rest ih =>
      intro ys name v h
      obtain ⟨n, b⟩ := p
      have hn : ¬(n = name) := by
        intro he
        exact h (by simp [he])
      have h' : name ∉ rest.map Prod.fst := by
        intro hm
        exact h (by simp [hm])
      simp only [List.cons_append, updateFirst, if_neg hn, List.append_eq]
      rw [ih ys name v h']

mutual

/-- The inner `set_visibility` helper changes nothing about the tree but
the visibility flags (`shapeOf` is preserved), changes exactly the first
pre-order entry whose name matches (`visList` becomes `updateFirst` of
the old one), and reports `found` exactly when some layer carries the
name. -/
theorem setVisibility_spec (l : PLayer) (name : String) (v : Bool) :
    shapeOf (setVisibility l name v).2 = shapeOf l
    ∧ visList (setVisibility l name v).2 = updateFirst (visList l) name v
    ∧ ((setVisibility l name v).1 = true ↔ name ∈ (visList l).map Prod.fst) := by
  cases l with
  | pixel n vis =>
      by_cases hn : n = name
      · subst hn
        simp [setVisibility, shapeOf, visList, updateFirst]
      · have hn' : ¬(name = n) := fun h => hn h.symm
        simp [setVisibility, shapeOf, visList, updateFirst, hn, hn']
  | group n vis cs =>
      by_cases hn : n = name
      · subst hn
        simp [setVisibility, shapeOf, visList, updateFirst]
      · have hn' : ¬(name = n) := fun h => hn h.symm
        obtain ⟨ih1, ih2, ih3⟩ := setVisibilityList_spec cs name v
        simp only [setVisibility, if_neg hn, shapeOf, visList]
        refine ⟨by rw [ih1], ?_, ?_⟩
        · rw [ih2]
          simp [updateFirst, hn]
        · rw [ih3]
          simp [hn']

theorem setVisibilityList_spec (ls : List PLayer) (name : String) (v : Bool) :
    shapeOfList (setVisibilityList ls name v).2 = shapeOfList ls
    ∧ visListL (setVisibilityList ls name v).2 = updateFirst (visListL ls) name v
    ∧ ((setVisibilityList ls name v).1 = true ↔ name ∈ (visListL ls).map Prod.fst) := by
  cases ls with
  | nil => simp [setVisibilityList, shapeOfList, visListL, updateFirst]
  | cons c rest =>
      obtain ⟨ih1, ih2, ih3⟩ := setVisibility_spec c name v
      obtain ⟨jh1, jh2, jh3⟩ := setVisibilityList_spec rest name v
      by_cases hf : (setVisibility c name v).1 = true
      · have hmem : name ∈ (visList c).map Prod.fst := ih3.mp hf
        simp only [setVisibilityList, if_pos hf, shapeOfList, visListL]
        refine ⟨by rw [ih1], ?_, ?_⟩
        · rw [updateFirst_append_left _ _ _ _ hmem, ih2]
        · simp [List.map_append, hmem]
      · have hnmem : name ∉ (visList c).map Prod.fst := fun hm => hf (ih3.mpr hm)
        simp only [setVisibilityList, if_neg hf, shapeOfList, visListL]
        refine ⟨by rw [jh1], ?_, ?_⟩
        · rw [jh2, updateFirst_append_right _ _ _ _ hnmem]
        · rw [jh3]
          simp [List.map_append, hnmem]

end

/-- C9: `set_layer_visibility` leaves the renderer (and with it any
in-memory composite) untouched — a Ready renderer returns the same bitmap
before and after, without state change — and edits the layer tree only at
the first pre-order layer whose name matches, flipping nothing but its
visibility flag. -/
theorem c9_visibility_mutation_frame (d : PSDDocument) (name : String) (v : Bool)
    (b : Bitmap) (hb : d.renderer.composite = some b) :
    (setLayerVisibility d name v).2.renderer = d.renderer
    ∧ getCompositeImage d.renderer none = (some b, d.renderer, false)
    ∧ getCompositeImage (setLayerVisibility d name v).2.renderer none =
        (some b, (setLayerVisibility d name v).2.renderer, false)
    ∧ (∀ ls, d.psd = some ls →
        ∃ ls', (setLayerVisibility d name v).2.psd = some ls'
          ∧ shapeOfList ls' = shapeOfList ls
          ∧ visListL ls' = updateFirst (visListL ls) name v
          ∧ ((setLayerVisibility d name v).1 = true ↔
              name ∈ (visListL ls).map Prod.fst)) := by
  have hren : (setLayerVisibility d name v).2.renderer = d.renderer := by
    unfold setLayerVisibility
    cases hd : d.psd <;> rfl
  have hget : getCompositeImage d.renderer none = (some b, d.renderer, false) := by
    unfold getCompositeImage
    rw [hb]
  refine ⟨hren, hget, by rw [hren]; exact hget, ?_⟩
  intro ls hls
  obtain ⟨s1, s2, s3⟩ := setVisibilityList_spec ls name v
  unfold setLayerVisibility
  rw [hls]
  exact ⟨(setVisibilityList ls name v).2, rfl, s1, s2, s3⟩

theorem c9_visibility_mutation_frame_witness :
    docC9.renderer.composite = some (Bitmap.external 5)
    ∧ ((setLayerVisibility docC9 "target" false).2.renderer = docC9.renderer
      ∧ getCompositeImage docC9.renderer none =
          (some (Bitmap.external 5), docC9.renderer, false)
      ∧ getCompositeImage (setLayerVisibility docC9 "target" false).2.renderer none =
          (some (Bitmap.external 5),
           (setLayerVisibility docC9 "target" false).2.renderer, false)
      ∧ (∀ ls, docC9.psd = some ls →
          ∃ ls', (setLayerVisibility docC9 "target" false).2.psd = some ls'
            ∧ shapeOfList ls' = shapeOfList ls
            ∧ visListL ls' = updateFirst (visListL ls) "target" false
            ∧ ((setLayerVisibility docC9 "target" false).1 = true ↔
                "target" ∈ (visListL ls).map Prod.fst))) :=
  ⟨rfl, c9_visibility_mutation_frame docC9 "target" false (Bitmap.external 5) rfl⟩

/-! ## Claim C10 -/

/-- The deletion loop never removes an entry whose name lacks a candidate
suffix, as long as every candidate handed to it has one. -/
theorem sweep_preserves_noncandidates :
    ∀ (cands : List (String × Nat)) (fs : CacheFS) (total : Nat)
      (n : String) (info : FileInfo),
      (∀ p ∈ cands, candExts.contains (suffixOf p.1) = true) →
      (n, info) ∈ fs →
      candExts.contains (suffixOf n) = false →
      (n, info) ∈ sweep cands fs total := by
  intro cands
  induction cands with
  | nil => intro fs total n info _ hmem _; exact hmem
  | cons p rest ih =>
      intro fs total n info hall hmem hsfx
      obtain ⟨nm, at0⟩ := p
      simp only [sweep]
      by_cases ht : total ≤ maxCacheSize
      · rw [if_pos ht]; exact hmem
      · rw [if_neg ht]
        cases hl : lookupFile fs nm with
        | none =>
            exact ih fs total n info
              (fun q hq => hall q (List.mem_cons_of_mem _ hq)) hmem hsfx
        | some i =>
            apply ih (removeFile fs nm) (total - i.size) n info
              (fun q hq => hall q (List.mem_cons_of_mem _ hq)) ?_ hsfx
            have hnm : n ≠ nm := by
              intro he
              have h1 := hall (nm, at0) (List.mem_cons_self _ _)
              rw [← he, hsfx] at h1
              exact Bool.noConfusion h1
            exact List.mem_filter.mpr ⟨hmem, decide_eq_true hnm⟩

/-- Every sorted candidate has a candidate suffix. -/
theorem sortedCandidates_suffix (fs : CacheFS) :
    ∀ p ∈ sortedCandidates fs, candExts.contains (suffixOf p.1) = true := by
  intro p hp
  have hp2 : p ∈ candidates fs := (List.perm_insertionSort _ _).subset hp
  unfold candidates at hp2
  obtain ⟨e, he, hpe⟩ := List.mem_map.mp hp2
  have hc := (List.mem_filter.mp he).2
  rw [← hpe]
  simpa [isCandidate] using hc

/-- C10: the eviction sweep only ever deletes files whose suffix is
`.png`, `.jpg` or `.jpeg` — any other entry, `metadata.json` in
particular, survives `_cleanup_cache` — even though such files' byte
sizes are counted in the total that decides whether the cache is over
budget (in the concrete instance, `metadata.json` alone forces the sweep
that deletes the image file, and is itself retained). -/
theorem c10_eviction_only_image_suffixes (fs : CacheFS) (n : String) (info : FileInfo)
    (hmem : (n, info) ∈ fs)
    (hsfx : candExts.contains (suffixOf n) = false) :
    (n, info) ∈ cleanupCache fs
    ∧ (∀ minfo : FileInfo, ("metadata.json", minfo) ∈ fs →
        ("metadata.json", minfo) ∈ cleanupCache fs)
    ∧ cleanupCache fsC10 = [("metadata.json", bigMeta)] := by
  have main : ∀ (fs0 : CacheFS) (m : String) (mi : FileInfo), (m, mi) ∈ fs0 →
      candExts.contains (suffixOf m) = false → (m, mi) ∈ cleanupCache fs0 := by
    intro fs0 m mi hm hs
    unfold cleanupCache
    by_cases ht : totalSize fs0 ≤ maxCacheSize
    · rw [if_pos ht]; exact hm
    · rw [if_neg ht]
      exact sweep_preserves_noncandidates (sortedCandidates fs0) fs0 (totalSize fs0) m mi
        (sortedCandidates_suffix fs0) hm hs
  refine ⟨main fs n info hmem hsfx, ?_, ?_⟩
  · intro minfo hm
    exact main fs "metadata.json" minfo hm (by decide)
  · decide

theorem c10_eviction_only_image_suffixes_witness :
    ("metadata.json", bigMeta) ∈ fsC10
    ∧ candExts.contains (suffixOf "metadata.json") = false
    ∧ (("metadata.json", bigMeta) ∈ cleanupCache fsC10
      ∧ (∀ minfo : FileInfo, ("metadata.json", minfo) ∈ fsC10 →
          ("metadata.json", minfo) ∈ cleanupCache fsC10)
      ∧ cleanupCache fsC10 = [("metadata.json", bigMeta)]) :=
  ⟨by decide, by decide,
    c10_eviction_only_image_suffixes fsC10 "metadata.json" bigMeta (by decide) (by decide)⟩

/-! ## Claims C7 and C8: facts about the cache file list -/

theorem lookupFile_eq_some :
    ∀ (fs : CacheFS) (n : String) (i : FileInfo),
      (fs.map Prod.fst).Nodup → (n, i) ∈ fs → lookupFile fs n = some i := by
  intro fs
  induction fs with
  | nil => intro n i _ h; simp at h
  | cons e rest ih =>
      intro n i hnd hmem
      obtain ⟨m, j⟩ := e
      rw [List.map_cons] at hnd
      have hnd1 := List.nodup_cons.mp hnd
      rcases List.mem_cons.mp hmem with h1 | h1
      · injection h1 with hn hi
        subst hn; subst hi
        unfold lookupFile
        rw [List.find?_cons_of_pos _ (by simp)]
        rfl
      · have hn : ¬(m = n) := by
          intro he
          subst he
          exact hnd1.1 (List.mem_map.mpr ⟨(m, i), h1, rfl⟩)
        unfold lookupFile
        rw [List.find?_cons_of_neg _ (by simpa using hn)]
        exact ih n i hnd1.2 h1

theorem removeFile_eq_self (fs : CacheFS) (n : String)
    (h : n ∉ fs.map Prod.fst) : removeFile fs n = fs := by
  unfold removeFile
  apply List.filter_eq_self.mpr
  intro e he
  exact decide_eq_true (fun hc => h (List.mem_map.mpr ⟨e, he, hc⟩))

theorem mem_removeFile_of_ne (fs : CacheFS) (m : String) (j : FileInfo) (n : String)
    (hmem : (m, j) ∈ fs) (hne : m ≠ n) : (m, j) ∈ removeFile fs n :=
  List.mem_filter.mpr ⟨hmem, decide_eq_true hne⟩

theorem perm_cons_removeFile :
    ∀ (fs : CacheFS) (n : String) (i : FileInfo),
      (fs.map Prod.fst).Nodup → (n, i) ∈ fs →
      fs.Perm ((n, i) :: removeFile fs n) := by
  intro fs
  induction fs with
  | nil => intro n i _ h; simp at h
  | cons e rest ih =>
      intro n i hnd hmem
      obtain ⟨m, j⟩ := e
      rw [List.map_cons] at hnd
      have hnd1 := List.nodup_cons.mp hnd
      rcases List.mem_cons.mp hmem with h1 | h1
      · injection h1 with hn hi
        subst hn; subst hi
        have hrf : removeFile ((n, i) :: rest) n = rest := by
          unfold removeFile
          rw [List.filter_cons_of_neg (by simp)]
          exact removeFile_eq_self rest n hnd1.1
        rw [hrf]
      · have hmn : m ≠ n := by
          intro he
          subst he
          exact hnd1.1 (List.mem_map.mpr ⟨(m, i), h1, rfl⟩)
        have hrf : removeFile ((m, j) :: rest) n = (m, j) :: removeFile rest n := by
          unfold removeFile
          rw [List.filter_cons_of_pos (by simpa using hmn)]
        rw [hrf]
        exact ((ih n i hnd1.2 h1).cons (m, j)).trans (List.Perm.swap _ _ _)

theorem totalSize_perm (fs fs' : CacheFS) (h : fs.Perm fs') :
    totalSize fs = totalSize fs' :=
  List.Perm.sum_eq (h.map _)

theorem totalSize_removeFile (fs : CacheFS) (n : String) (i : FileInfo)
    (hnd : (fs.map Prod.fst).Nodup) (hmem : (n, i) ∈ fs) :
    totalSize fs = i.size + totalSize (removeFile fs n) := by
  have h := totalSize_perm _ _ (perm_cons_removeFile fs n i hnd hmem)
  simpa [totalSize] using h

theorem nodup_removeFile (fs : CacheFS) (n : String)
    (hnd : (fs.map Prod.fst).Nodup) : ((removeFile fs n).map Prod.fst).Nodup :=
  hnd.sublist ((List.filter_sublist fs).map Prod.fst)

theorem mem_keys_unique (fs : CacheFS) (n : String) (i j : FileInfo)
    (hnd : (fs.map Prod.fst).Nodup) (hi : (n, i) ∈ fs) (hj : (n, j) ∈ fs) : i = j := by
  have h1 := lookupFile_eq_some fs n i hnd hi
  have h2 := lookupFile_eq_some fs n j hnd hj
  rw [h1] at h2
  injection h2

theorem removeList_eq_filter :
    ∀ (names : List String) (fs : CacheFS),
      removeList names fs = fs.filter (fun e => decide (e.1 ∉ names)) := by
  intro names
  induction names with
  | nil =>
      intro fs
      unfold removeList
      simp
  | cons nm rest ih =>
      intro fs
      unfold removeList at ih ⊢
      rw [List.foldl_cons, ih (removeFile fs nm)]
      unfold removeFile
      rw [List.filter_filter]
      apply List.filter_congr
      intro e _
      by_cases h1 : e.1 = nm <;> by_cases h2 : e.1 ∈ rest <;>
        simp [h1, h2, List.mem_cons]

theorem removeList_all_candidates (fs : CacheFS)
    (hnd : (fs.map Prod.fst).Nodup) :
    removeList ((sortedCandidates fs).map Prod.fst) fs =
      fs.filter (fun e => !isCandidate e) := by
  rw [removeList_eq_filter]
  apply List.filter_congr
  intro e he
  by_cases hc : isCandidate e = true
  · have hm : e.1 ∈ (sortedCandidates fs).map Prod.fst := by
      apply List.mem_map.mpr
      refine ⟨(e.1, e.2.atime), ?_, rfl⟩
      have hcand : (e.1, e.2.atime) ∈ candidates fs :=
        List.mem_map.mpr ⟨e, List.mem_filter.mpr ⟨he, hc⟩, rfl⟩
      exact ((List.perm_insertionSort _ _).symm.subset) hcand
    simp [hc, hm]
  · have hnot : e.1 ∉ (sortedCandidates fs).map Prod.fst := by
      intro hm
      obtain ⟨p, hp, hpe⟩ := List.mem_map.mp hm
      have hp2 : p ∈ candidates fs := (List.perm_insertionSort _ _).subset hp
      obtain ⟨e', he', hpe'⟩ := List.mem_map.mp hp2
      have hkey : e'.1 = e.1 := by rw [← hpe, ← hpe']
      have hmem' := (List.mem_filter.mp he').1
      have hv : e'.2 = e.2 := by
        apply mem_keys_unique fs e.1 e'.2 e.2 hnd ?_ he
        have h1 : (e'.1, e'.2) ∈ fs := hmem'
        rwa [hkey] at h1
      have hee : e' = e := Prod.ext hkey hv
      rw [hee] at he'
      exact hc (List.mem_filter.mp he').2
    simp [hc, hnot]

/-- The deletion loop, specified: starting from a directory whose real
total is `totalSize fs`, it removes exactly a prefix of the candidate
list — stopping at the first point where the total is within budget — and
if it did not exhaust the candidates, the final total is within budget. -/
theorem sweep_spec :
    ∀ (cands : List (String × Nat)) (fs : CacheFS),
      (fs.map Prod.fst).Nodup →
      (cands.map Prod.fst).Nodup →
      (∀ p ∈ cands, ∃ i, (p.1, i) ∈ fs) →
      ∃ k, k ≤ cands.length
        ∧ sweep cands fs (totalSize fs) = removeList ((cands.take k).map Prod.fst) fs
        ∧ (∀ j, j < k →
            maxCacheSize < totalSize (removeList ((cands.take j).map Prod.fst) fs))
        ∧ (k = cands.length ∨ totalSize (sweep cands fs (totalSize fs)) ≤ maxCacheSize) := by
  intro cands
  induction cands with
  | nil =>
      intro fs _ _ _
      exact ⟨0, Nat.le_refl 0, rfl, fun j hj => absurd hj (Nat.not_lt_zero j), Or.inl rfl⟩
  | cons p rest ih =>
      intro fs hnd hcd hsub
      obtain ⟨nm, at0⟩ := p
      by_cases ht : totalSize fs ≤ maxCacheSize
      · refine ⟨0, Nat.zero_le _, ?_, fun j hj => absurd hj (Nat.not_lt_zero j), Or.inr ?_⟩
        · simp only [sweep, if_pos ht]
          rfl
        · simp only [sweep, if_pos ht]
          exact ht
      · obtain ⟨i0, hi0⟩ := hsub (nm, at0) (List.mem_cons_self _ _)
        have hlk : lookupFile fs nm = some i0 := lookupFile_eq_some fs nm i0 hnd hi0
        have hswp : sweep ((nm, at0) :: rest) fs (totalSize fs) =
            sweep rest (removeFile fs nm) (totalSize (removeFile fs nm)) := by
          have htot2 : totalSize fs - i0.size = totalSize (removeFile fs nm) := by
            rw [totalSize_removeFile fs nm i0 hnd hi0]
            omega
          simp only [sweep]
          rw [if_neg ht, hlk]
          show sweep rest (removeFile fs nm) (totalSize fs - i0.size) = _
          rw [htot2]
        have hnd2 : ((removeFile fs nm).map Prod.fst).Nodup := nodup_removeFile fs nm hnd
        rw [List.map_cons] at hcd
        have hcd1 := List.nodup_cons.mp hcd
        have hsub2 : ∀ q ∈ rest, ∃ i, (q.1, i) ∈ removeFile fs nm := by
          intro q hq
          obtain ⟨iq, hiq⟩ := hsub q (List.mem_cons_of_mem _ hq)
          refine ⟨iq, mem_removeFile_of_ne fs q.1 iq nm hiq ?_⟩
          intro he
          exact hcd1.1 (he ▸ List.mem_map.mpr ⟨q, hq, rfl⟩)
        obtain ⟨k, hk1, hk2, hk3, hk4⟩ := ih (removeFile fs nm) hnd2 hcd1.2 hsub2
        refine ⟨k + 1, by simpa using Nat.succ_le_succ hk1, ?_, ?_, ?_⟩
        · rw [hswp, hk2]
          rfl
        · intro j hj
          cases j with
          | zero => exact Nat.not_le.mp ht
          | succ j' =>
              have hj' : j' < k := by omega
              exact hk3 j' hj'
        · rcases hk4 with h | h
          · exact Or.inl (by simp [h])
          · refine Or.inr ?_
            rw [hswp]
            exact h

/-- `_cleanup_cache`, specified: provided the bytes the sweep can never
delete fit in the budget, the files after cleanup fit in the budget, and
the deleted files are the shortest prefix of the atime-ascending
candidate list whose removal brings the total within budget. -/
theorem cleanupCache_spec (fs : CacheFS)
    (hnd : (fs.map Prod.fst).Nodup)
    (hnc : nonCandidateTotal fs ≤ maxCacheSize) :
    totalSize (cleanupCache fs) ≤ maxCacheSize
    ∧ ∃ k, cleanupCache fs =
          removeList (((sortedCandidates fs).take k).map Prod.fst) fs
        ∧ ∀ j, j < k →
            maxCacheSize <
              totalSize (removeList (((sortedCandidates fs).take j).map Prod.fst) fs) := by
  by_cases ht : totalSize fs ≤ maxCacheSize
  · refine ⟨?_, 0, ?_, fun j hj => absurd hj (Nat.not_lt_zero j)⟩
    · unfold cleanupCache
      rw [if_pos ht]
      exact ht
    · unfold cleanupCache
      rw [if_pos ht]
      rfl
  · have hckeys : ((candidates fs).map Prod.fst).Nodup := by
      unfold candidates
      rw [List.map_map]
      exact hnd.sublist ((List.filter_sublist fs).map Prod.fst)
    have hcnd : ((sortedCandidates fs).map Prod.fst).Nodup := by
      unfold sortedCandidates
      exact ((List.perm_insertionSort _ _).map Prod.fst).nodup_iff.mpr hckeys
    have hsubs : ∀ p ∈ sortedCandidates fs, ∃ i, (p.1, i) ∈ fs := by
      intro p hp
      have hp2 : p ∈ candidates fs := (List.perm_insertionSort _ _).subset hp
      obtain ⟨e, he, hpe⟩ := List.mem_map.mp hp2
      refine ⟨e.2, ?_⟩
      rw [← hpe]
      exact (List.mem_filter.mp he).1
    obtain ⟨k, hk1, hk2, hk3, hk4⟩ := sweep_spec (sortedCandidates fs) fs hnd hcnd hsubs
    have hcl : cleanupCache fs = sweep (sortedCandidates fs) fs (totalSize fs) := by
      unfold cleanupCache
      rw [if_neg ht]
    refine ⟨?_, k, by rw [hcl, hk2], fun j hj => hk3 j hj⟩
    rcases hk4 with h | h
    · rw [hcl, hk2, h, List.take_length, removeList_all_candidates fs hnd]
      exact hnc
    · rw [hcl]
      exact h

theorem nodup_setFile (fs : CacheFS) (n : String) (i : FileInfo)
    (hnd : (fs.map Prod.fst).Nodup) : ((setFile fs n i).map Prod.fst).Nodup := by
  unfold setFile
  rw [List.map_cons]
  apply List.nodup_cons.mpr
  refine ⟨?_, nodup_removeFile fs n hnd⟩
  intro hm
  obtain ⟨e, he, hpe⟩ := List.mem_map.mp hm
  have hd := (List.mem_filter.mp he).2
  exact absurd hpe (of_decide_eq_true hd)

theorem writeStage_nodup (img : Bitmap) (filepath suffix : String)
    (srcSize srcMtime now : Nat) (st : CacheState)
    (hnd : (st.files.map Prod.fst).Nodup) :
    (((writeStage img filepath suffix srcSize srcMtime now st).files).map Prod.fst).Nodup := by
  unfold writeStage
  exact nodup_setFile _ _ _ (nodup_setFile _ _ _ hnd)

/-- C7 amended: after `save_image_to_cache`, provided the bytes held by
files the sweep can never delete (no `.png`/`.jpg`/`.jpeg` suffix,
`metadata.json` among them) fit in the 1 GiB budget, the eviction sweep
leaves the total cache size within the budget, and the deleted files are
exactly a minimal prefix of the candidates sorted by last-access time
ascending — the least-recently-accessed ones, removed one at a time until
the running total is under budget. -/
theorem c7_eviction_bound (img : Bitmap) (filepath suffix : String)
    (srcSize srcMtime now : Nat) (st : CacheState)
    (hnd : (st.files.map Prod.fst).Nodup)
    (hnc : nonCandidateTotal
        (writeStage img filepath suffix srcSize srcMtime now st).files ≤ maxCacheSize) :
    totalSize (saveImageToCache img filepath suffix srcSize srcMtime now st).files
        ≤ maxCacheSize
    ∧ ∃ k, (saveImageToCache img filepath suffix srcSize srcMtime now st).files =
          removeList
            (((sortedCandidates
                (writeStage img filepath suffix srcSize srcMtime now st).files).take k).map
              Prod.fst)
            (writeStage img filepath suffix srcSize srcMtime now st).files
        ∧ ∀ j, j < k →
            maxCacheSize <
              totalSize (removeList
                (((sortedCandidates
                    (writeStage img filepath suffix srcSize srcMtime now st).files).take j).map
                  Prod.fst)
                (writeStage img filepath suffix srcSize srcMtime now st).files) :=
  cleanupCache_spec (writeStage img filepath suffix srcSize srcMtime now st).files
    (writeStage_nodup img filepath suffix srcSize srcMtime now st hnd) hnc

/-- C7 counterexample: after this `save_image_to_cache` call the total
exceeded the budget, the sweep ran — yet the sum of the remaining cache
file sizes is still above the budget, because the non-candidate
`junk.bin` can never be deleted.  The claim's unconditional "sum of the
remaining cache file sizes is at most the budget" is false. -/
theorem c7_counterexample :
    totalSize (writeStage (Bitmap.external 0) "a.psd" "_full" 10 5 6 stC7).files
        > maxCacheSize
    ∧ totalSize (saveImageToCache (Bitmap.external 0) "a.psd" "_full" 10 5 6 stC7).files
        > maxCacheSize := by
  refine ⟨by decide, by decide⟩

theorem c7_eviction_bound_witness :
    (((emptyCache.files).map Prod.fst).Nodup
    ∧ nonCandidateTotal
        (writeStage (Bitmap.external 2) "d.psd" "_full" 30 5 6 emptyCache).files
        ≤ maxCacheSize)
    ∧ (totalSize (saveImageToCache (Bitmap.external 2) "d.psd" "_full" 30 5 6 emptyCache).files
        ≤ maxCacheSize
      ∧ ∃ k, (saveImageToCache (Bitmap.external 2) "d.psd" "_full" 30 5 6 emptyCache).files =
            removeList
              (((sortedCandidates
                  (writeStage (Bitmap.external 2) "d.psd" "_full" 30 5 6 emptyCache).files).take
                    k).map Prod.fst)
              (writeStage (Bitmap.external 2) "d.psd" "_full" 30 5 6 emptyCache).files
          ∧ ∀ j, j < k →
              maxCacheSize <
                totalSize (removeList
                  (((sortedCandidates
                      (writeStage (Bitmap.external 2) "d.psd" "_full" 30 5 6
                        emptyCache).files).take j).map Prod.fst)
                  (writeStage (Bitmap.external 2) "d.psd" "_full" 30 5 6 emptyCache).files)) :=
  ⟨⟨by decide, by decide⟩,
    c7_eviction_bound (Bitmap.external 2) "d.psd" "_full" 30 5 6 emptyCache
      (by decide) (by decide)⟩

/-! ## Claim C8 -/

theorem data_append (s t : String) : (s ++ t).data = s.data ++ t.data := rfl

/-- A computed cache path always begins with the hash sentinel, so it
never collides with the metadata index's fixed file name. -/
theorem getCachePath_ne_metadata (filepath suffix : String) (a b : Nat) :
    getCachePath filepath suffix a b ≠ "metadata.json" := by
  intro h
  have h2 := congrArg String.data h
  simp only [getCachePath, getFileHash, data_append, List.append_assoc] at h2
  simp only [List.cons_append, List.nil_append] at h2
  injection h2 with _ h3
  injection h3 with h4 _
  exact absurd h4 (by decide)

/-- C8 amended: `save_image_to_cache` immediately followed by
`get_cached_image`, with the source file unmodified in between
(`now ≥ srcMtime`), returns a bitmap pixel-equal to the saved one —
provided the eviction sweep triggered by the save does not delete the
fresh entry, in particular whenever the total cache size after the write
is within the 1 GiB budget. -/
theorem c8_roundtrip (img : Bitmap) (filepath suffix : String)
    (srcSize srcMtime now : Nat) (st : CacheState)
    (hfit : totalSize (writeStage img filepath suffix srcSize srcMtime now st).files
        ≤ maxCacheSize)
    (hmt : srcMtime ≤ now) :
    getCachedImage (saveImageToCache img filepath suffix srcSize srcMtime now st).files
        filepath suffix srcSize srcMtime =
      (some img, (saveImageToCache img filepath suffix srcSize srcMtime now st).files) := by
  have hclean : (saveImageToCache img filepath suffix srcSize srcMtime now st).files =
      (writeStage img filepath suffix srcSize srcMtime now st).files := by
    show cleanupCache _ = _
    unfold cleanupCache
    rw [if_pos hfit]
  have hne : getCachePath filepath suffix srcSize srcMtime ≠ "metadata.json" :=
    getCachePath_ne_metadata filepath suffix srcSize srcMtime
  have hlk : lookupFile (writeStage img filepath suffix srcSize srcMtime now st).files
      (getCachePath filepath suffix srcSize srcMtime) =
      some { size := pngSize img, mtime := now, atime := now, content := some img } := by
    unfold writeStage setFile lookupFile
    rw [List.find?_cons_of_neg _ (by simpa using fun he => hne he.symm)]
    unfold removeFile
    rw [List.filter_cons_of_pos (by simpa using hne)]
    rw [List.find?_cons_of_pos _ (by simp)]
    rfl
  rw [hclean]
  simp only [getCachedImage]
  rw [hlk]
  simp [Nat.not_lt.mpr hmt]

/-- C8 counterexample: the save writes the entry, but the eviction sweep
it triggers deletes the fresh cache file (the non-candidate 2 GiB
`junk.bin` keeps the total over budget however many candidates are
removed), so the immediately following `get_cached_image` returns absent,
not a bitmap pixel-equal to the saved one. -/
theorem c8_counterexample :
    (lookupFile (writeStage (Bitmap.external 1) "b.psd" "_full" 20 7 9 stC8).files
        (getCachePath "b.psd" "_full" 20 7)).isSome = true
    ∧ lookupFile (saveImageToCache (Bitmap.external 1) "b.psd" "_full" 20 7 9 stC8).files
        (getCachePath "b.psd" "_full" 20 7) = none
    ∧ (getCachedImage (saveImageToCache (Bitmap.external 1) "b.psd" "_full" 20 7 9 stC8).files
        "b.psd" "_full" 20 7).1 = none := by
  refine ⟨by decide, by decide, by decide⟩

theorem c8_roundtrip_witness :
    (totalSize (writeStage (Bitmap.external 2) "c.psd" "_full" 30 5 6 emptyCache).files
        ≤ maxCacheSize
    ∧ 5 ≤ 6)
    ∧ getCachedImage
        (saveImageToCache (Bitmap.external 2) "c.psd" "_full" 30 5 6 emptyCache).files
        "c.psd" "_full" 30 5 =
      (some (Bitmap.external 2),
       (saveImageToCache (Bitmap.external 2) "c.psd" "_full" 30 5 6 emptyCache).files) :=
  ⟨⟨by decide, by decide⟩,
    c8_roundtrip (Bitmap.external 2) "c.psd" "_full" 30 5 6 emptyCache
      (by decide) (by decide)⟩

end PSDTemple
